import Mathlib

/-!
Shallow embedding of `src/advisor/analyze.py` (the classification /
aggregation engine of the actions-permissions advisor) together with
theorems settling the specification claims about it.

Python strings become `String`, tuples become products, dicts become
association lists looked up with `alookup`, and the two network lookups
(`requests.get` against the origin API) are abstracted as response
functions carried by the `Analyzer` structure; a `none` response models a
raised transport exception.  Caches are threaded explicitly, and every
outbound repository-visibility call is logged so the caching claim can be
stated.
-/

/-- Python `str.split(sep)` for a single-character separator:
`"".split(c) = ['']`, separators at the ends produce empty segments. -/
def pySplit (sep : Char) (s : String) : List String :=
  (s.toList.foldr
    (fun ch acc =>
      match acc with
      | [] => if ch = sep then [[], []] else [[ch]]
      | cur :: rest => if ch = sep then [] :: cur :: rest else (ch :: cur) :: rest)
    [[]]).map (fun l => ⟨l⟩)

/-- Python `str.isdigit` restricted to ASCII digits (all observed inputs are
ASCII): nonempty and made of digits only. -/
def pyIsDigit (s : String) : Bool :=
  !s.toList.isEmpty && s.toList.all Char.isDigit

/-- Python `str.startswith`. -/
def pyStartsWith (s pre : String) : Bool :=
  s.toList.take pre.toList.length == pre.toList

/-- ASCII lowering of one character, the fragment of Python `str.lower`
exercised by repository names. -/
def charLower (c : Char) : Char :=
  if 'A' ≤ c ∧ c ≤ 'Z' then Char.ofNat (c.toNat + 32) else c

/-- Python `str.lower` (ASCII fragment). -/
def pyLower (s : String) : String :=
  ⟨s.toList.map charLower⟩

/-- Python `needle in s` for a single character. -/
def pyContainsChar (s : String) (c : Char) : Bool :=
  s.toList.contains c

/-- Association-list lookup, modelling Python dict indexing (keys are
inserted at most once, so first match is the dict entry). -/
def alookup {κ ν : Type} [DecidableEq κ] : List (κ × ν) → κ → Option ν
  | [], _ => none
  | (k, v) :: rest, key => if k = key then some v else alookup rest key

/-- A (permission, level) pair as produced by the classifier. -/
abbrev Grant := String × String

/-- The static special-case table of `_build_special_cases`, verbatim:
(method, path template, permission, level). -/
def specialCaseList : List (String × String × String × String) := [
  ("GET", "/repos/{owner}/{repo}/codeowners/errors", "contents", "read"),
  ("PUT", "/repos/{owner}/{repo}/pulls/{n}/merge", "contents", "write"),
  ("PUT", "/repos/{owner}/{repo}/pulls/{n}/update-branch", "contents", "write"),
  ("POST", "/repos/{owner}/{repo}/comments/{n}/reactions", "contents", "write"),
  ("DELETE", "/repos/{owner}/{repo}/comments/{n}/reactions/{n}", "contents", "write"),
  ("GET", "/repos/{owner}/{repo}/branches", "contents", "read"),
  ("POST", "/repos/{owner}/{repo}/merge-upstream", "contents", "write"),
  ("POST", "/repos/{owner}/{repo}/merges", "contents", "write"),
  ("PATCH", "/repos/{owner}/{repo}/comments/{n}", "contents", "write"),
  ("DELETE", "/repos/{owner}/{repo}/comments/{n}", "contents", "write"),
  ("POST", "/repos/{owner}/{repo}/dispatches", "contents", "write"),
  ("POST", "/repos/{owner}/{repo}/issues", "issues", "write"),
  ("GET", "/repos/{owner}/{repo}/labels", "issues", "read"),
  ("POST", "/repos/{owner}/{repo}/labels", "issues", "write"),
  ("GET", "/repos/{owner}/{repo}/labels/{n}", "issues", "read"),
  ("PATCH", "/repos/{owner}/{repo}/labels/{n}", "issues", "write"),
  ("DELETE", "/repos/{owner}/{repo}/labels/{n}", "issues", "write"),
  ("GET", "/repos/{owner}/{repo}/milestones", "issues", "read"),
  ("POST", "/repos/{owner}/{repo}/milestones", "issues", "write"),
  ("GET", "/repos/{owner}/{repo}/milestones/{n}", "issues", "read"),
  ("PATCH", "/repos/{owner}/{repo}/milestones/{n}", "issues", "write"),
  ("DELETE", "/repos/{owner}/{repo}/milestones/{n}", "issues", "write"),
  ("GET", "/repos/{owner}/{repo}/milestones/{n}/labels", "issues", "read"),
  ("GET", "/repos/{owner}/{repo}/issues", "issues+pull-requests", "read"),
  ("GET", "/repos/{owner}/{repo}/issues/comments", "issues+pull-requests", "read"),
  ("GET", "/repos/{owner}/{repo}/issues/events", "issues+pull-requests", "read"),
  ("GET", "/repos/{owner}/{repo}/assignees", "issues+pull-requests", "read")
]

/-- Catalog-build step: split the template on `/`, drop the leading empty
segment, and replace placeholder segments (those starting with a brace)
with the wildcard marker. -/
def toPattern (path : String) : List String :=
  ((pySplit '/' path).drop 1).map (fun s => if pyStartsWith s "\x7b" then "*" else s)

/-- The built catalog: `(method, segment pattern) ↦ (permission, level)`. -/
def specialCases : List ((String × List String) × Grant) :=
  specialCaseList.map (fun (m, p, perm, lvl) => ((m, toPattern p), (perm, lvl)))

/-- Candidate pattern of `_match_special_case` at widening step `i`: a
segment is wildcarded when it is entirely numeric and lies in the trailing
`i` positions, or when it starts with a brace. -/
def candidate (segments : List String) (i : Nat) : List String :=
  segments.enum.map (fun js =>
    if (decide (segments.length - i ≤ js.1) && pyIsDigit js.2) || pyStartsWith js.2 "\x7b"
    then "*" else js.2)

/-- The catalog matcher `_match_special_case`: try `i = 0, 1, …, n`
(most literal first) and return the first catalog hit. -/
def matchSpecialCase (method path : String) : Option Grant :=
  (List.range (((pySplit '/' path).drop 1).length + 1)).findSome?
    (fun i => alookup specialCases (method, candidate ((pySplit '/' path).drop 1) i))

/-- Repository filter `_is_same_repo`; `repository = ""` means no target
repository is configured.  `segments` is the full split of the path,
including the leading empty segment. -/
def isSameRepo (repository : String) (segments : List String) : Bool :=
  if repository = "" then true
  else if 4 ≤ segments.length ∧ segments.getD 1 "" = "repos" then
    pyLower (segments.getD 2 "" ++ "/" ++ segments.getD 3 "") = pyLower repository
  else if 3 ≤ segments.length ∧ segments.getD 1 "" = "repositories" then true
  else true

/-- The analyzer configuration and its view of the origin API.
`hasCred` is `HAS_REQUESTS and token`; `repoResp repo` is the outcome of
`GET {api}/repos/{repo}` as (status, JSON `private` field), `none` meaning
a raised transport error; `prResp owner repo n` is the status of
`GET {api}/repos/{owner}/{repo}/pulls/{n}`, `none` meaning a raised
transport error. -/
structure Analyzer where
  hasCred : Bool
  repository : String
  repoResp : String → Option (Nat × Option Bool)
  prResp : String → String → String → Option Nat

/-- The two per-run caches of the analyzer instance. -/
structure Caches where
  repoCache : List (String × Bool)
  prCache : List (String × Option Bool)
deriving DecidableEq

/-- Fresh caches, as built in `__init__`. -/
def emptyCaches : Caches := ⟨[], []⟩

/-- Value computed for a repository on a cache miss of `_is_public_repo`:
public exactly on a 200 response whose `private` field (default `True`)
is false; any other status or a transport error yields `false`. -/
def pubVal (a : Analyzer) (repo : String) : Bool :=
  match a.repoResp repo with
  | some (status, priv) => if status = 200 then !(priv.getD true) else false
  | none => false

/-- Visibility check `_is_public_repo`, returning the answer, the updated
caches, and the list of outbound visibility calls made (by repo key). -/
def isPublicRepo (a : Analyzer) (c : Caches) (repo : String) :
    Bool × Caches × List String :=
  if !a.hasCred then (false, c, [])
  else
    match alookup c.repoCache repo with
    | some b => (b, c, [])
    | none =>
      let v := pubVal a repo
      (v, { c with repoCache := c.repoCache ++ [(repo, v)] }, [repo])

/-- Identity check `_is_pull_request`: `some true` on a 200 from the pulls
endpoint, `some false` on any other status, `none` (unknown) on a
transport error or with no credential; the tri-state answer is cached. -/
def isPullRequest (a : Analyzer) (c : Caches) (owner repo num : String) :
    Option Bool × Caches :=
  if !a.hasCred then (none, c)
  else
    let key := owner ++ "/" ++ repo ++ "#" ++ num
    match alookup c.prCache key with
    | some v => (v, c)
    | none =>
      let v : Option Bool :=
        match a.prResp owner repo num with
        | some status => some (status = 200)
        | none => none
      (v, { c with prCache := c.prCache ++ [(key, v)] })

/-- Access level from the HTTP verb: `'read' if method == 'GET' else
'write'`. -/
def readWrite (method : String) : String :=
  if method = "GET" then "read" else "write"

/-- Fragment of `urllib.parse.parse_qs` used by the code:
`parse_qs(query).get('service', [''])[0]`, i.e. the first non-empty value
of a `service=…` pair (percent-decoding is not modelled; no catalogued
service name contains an encoded character). -/
def queryService (query : String) : String :=
  match (pySplit '&' query).filterMap (fun kv =>
      match pySplit '=' kv with
      | k :: v :: rest =>
        if k = "service" ∧ String.intercalate "=" (v :: rest) ≠ ""
        then some (String.intercalate "=" (v :: rest)) else none
      | _ => none) with
  | s :: _ => s
  | [] => ""

/-- Result type of one classification: grants, updated caches, visibility
calls made. -/
abbrev ClassifyResult := List Grant × Caches × List String

/-- The `/repos/{owner}/{repo}/{resource}` block of `get_permission`
(lines 176–231); `none` means fall through to the later blocks. -/
def repoResourceBlock (a : Analyzer) (c : Caches) (method : String)
    (segments : List String) : Option ClassifyResult :=
  if 5 ≤ segments.length ∧ segments.getD 1 "" = "repos" then
    let owner := segments.getD 2 ""
    let repo := segments.getD 3 ""
    let resource := segments.getD 4 ""
    let fullRepo := owner ++ "/" ++ repo
    if resource = "actions" ∨ resource = "environments" then
      if method = "GET" then
        match isPublicRepo a c fullRepo with
        | (pub, c', calls) =>
          if pub then some ([], c', calls) else some ([("actions", "read")], c', calls)
      else some ([("actions", "write")], c, [])
    else if resource = "check-runs" ∨ resource = "check-suites" then
      some ([("checks", readWrite method)], c, [])
    else if resource = "releases" ∨ resource = "git" ∨ resource = "commits" then
      if method = "GET" then
        match isPublicRepo a c fullRepo with
        | (pub, c', calls) =>
          if pub then some ([], c', calls) else some ([("contents", "read")], c', calls)
      else some ([("contents", "write")], c, [])
    else if resource = "deployments" then
      some ([("deployments", readWrite method)], c, [])
    else if resource = "pages" then
      some ([("pages", readWrite method)], c, [])
    else if resource = "pulls" then
      some ([("pull-requests", readWrite method)], c, [])
    else if resource = "projects" then
      some ([("repository-projects", readWrite method)], c, [])
    else if resource = "code-scanning" then
      some ([("security-events", readWrite method)], c, [])
    else if resource = "statuses" then
      some ([("statuses", readWrite method)], c, [])
    else if resource = "issues" ∧ 6 ≤ segments.length then
      let num := segments.getD 5 ""
      if pyIsDigit num then
        match isPullRequest a c owner repo num with
        | (some true, c') => some ([("pull-requests", readWrite method)], c', [])
        | (some false, c') => some ([("issues", readWrite method)], c', [])
        | (none, c') =>
          some ([("issues", readWrite method), ("pull-requests", readWrite method)], c', [])
      else none
    else none
  else none

/-- The `info/refs` smart-HTTP block (lines 234–244). -/
def infoRefsBlock (a : Analyzer) (c : Caches) (segments : List String)
    (query : String) : Option ClassifyResult :=
  if 5 ≤ segments.length ∧ segments.getD 3 "" = "info" ∧ segments.getD 4 "" = "refs" then
    let repo := segments.getD 1 "" ++ "/" ++ segments.getD 2 ""
    if query ≠ "" then
      let service := queryService query
      if service = "git-upload-pack" then
        match isPublicRepo a c repo with
        | (pub, c', calls) =>
          if pub then some ([], c', calls) else some ([("contents", "read")], c', calls)
      else if service = "git-receive-pack" then
        some ([("contents", "write")], c, [])
      else none
    else none
  else none

/-- The bare git pack-operation block (lines 247–254). -/
def gitPackBlock (a : Analyzer) (c : Caches) (segments : List String) :
    Option ClassifyResult :=
  if 4 ≤ segments.length then
    if segments.getD 3 "" = "git-upload-pack" then
      let repo := segments.getD 1 "" ++ "/" ++ segments.getD 2 ""
      match isPublicRepo a c repo with
      | (pub, c', calls) =>
        if pub then some ([], c', calls) else some ([("contents", "read")], c', calls)
    else if segments.getD 3 "" = "git-receive-pack" then
      some ([("contents", "write")], c, [])
    else none
  else none

/-- The remaining structural rules of `get_permission` (lines 256–275):
release downloads, packages, top-level projects, bare metadata reads. -/
def tailBlock (c : Caches) (method : String) (segments : List String) :
    Option ClassifyResult :=
  if 5 ≤ segments.length ∧ segments.getD 3 "" = "releases" ∧ segments.getD 4 "" = "download" then
    some ([], c, [])
  else if (4 ≤ segments.length ∧ (segments.getD 1 "" = "orgs" ∨ segments.getD 1 "" = "users")
            ∧ segments.getD 3 "" = "packages")
         ∨ (3 ≤ segments.length ∧ segments.getD 1 "" = "user" ∧ segments.getD 2 "" = "packages") then
    some ([("packages", readWrite method)], c, [])
  else if 2 ≤ segments.length ∧ segments.getD 1 "" = "projects" then
    some ([("repository-projects", readWrite method)], c, [])
  else if segments.length = 4 ∧ segments.getD 1 "" = "repos" ∧ method = "GET" then
    some ([], c, [])
  else if segments.length = 3 ∧ (segments.getD 1 "" = "repositories" ∨ segments.getD 1 "" = "users")
            ∧ method = "GET" then
    some ([], c, [])
  else none

/-- Generic resource resolution: the fall-through chain of `get_permission`
after the special-case stage, ending in the `unknown` sentinel. -/
def resolveGeneric (a : Analyzer) (c : Caches) (method : String)
    (segments : List String) (query : String) : ClassifyResult :=
  match repoResourceBlock a c method segments with
  | some r => r
  | none =>
    match infoRefsBlock a c segments query with
    | some r => r
    | none =>
      match gitPackBlock a c segments with
      | some r => r
      | none =>
        match tailBlock c method segments with
        | some r => r
        | none => ([("unknown", "unknown")], c, [])

/-- `get_permission`: repository filter, then special cases (a compound
permission `A+B` yields two grants), then the generic resolver. -/
def getPermission (a : Analyzer) (c : Caches) (method path query : String) :
    ClassifyResult :=
  if !isSameRepo a.repository (pySplit '/' path) then ([], c, [])
  else
    match matchSpecialCase method path with
    | some (perm, level) =>
      if pyContainsChar perm '+' then
        ((pySplit '+' perm).map (fun p => (p, level)), c, [])
      else ([(perm, level)], c, [])
    | none => resolveGeneric a c method (pySplit '/' path) query

/-- One observed request record; absent JSON fields are `none` and read
with an empty-string default, `oidc` defaults to false. -/
structure RequestRecord where
  mth : Option String
  pth : Option String
  qry : Option String
  oidc : Bool

/-- Per-record classification (the body of the `analyze` loop): an OIDC
record short-circuits to the identity-token grant. -/
def classify (a : Analyzer) (c : Caches) (r : RequestRecord) : ClassifyResult :=
  if r.oidc then ([("id-token", "write")], c, [])
  else getPermission a c (r.mth.getD "") (r.pth.getD "") (r.qry.getD "")

/-- In-place dict update: replace the value at an existing key, else
append. -/
def updateAssoc (l : List Grant) (k v : String) : List Grant :=
  match l with
  | [] => [(k, v)]
  | (k', v') :: rest => if k' = k then (k, v) :: rest else (k', v') :: updateAssoc rest k v

/-- One aggregation step of `analyze`: drop the `unknown` sentinel,
insert a new permission at its level, and upgrade an existing one only
when the new grant is a write. -/
def aggStep (perms : List Grant) (g : Grant) : List Grant :=
  if g.1 = "unknown" then perms
  else if (alookup perms g.1).isNone || g.2 = "write" then updateAssoc perms g.1 g.2
  else perms

/-- Fold a list of grants into a manifest, starting from `acc`. -/
def aggregate (acc : List Grant) (grants : List Grant) : List Grant :=
  grants.foldl aggStep acc

/-- `analyze`: classify each record with threaded caches and fold all
grants into the permission manifest (an insertion-ordered mapping). -/
def analyze (a : Analyzer) (records : List RequestRecord) : List Grant :=
  (records.foldl
    (fun (st : List Grant × Caches) r =>
      match classify a st.2 r with
      | (grants, c', _) => (aggregate st.1 grants, c'))
    ([], emptyCaches)).1

/-- A concrete analyzer with no credential and no configured repository;
every outbound call would fail. -/
def offlineAnalyzer : Analyzer :=
  ⟨false, "", fun _ => none, fun _ _ _ => none⟩

/-- A concrete analyzer holding a credential: the repository `pub/lic`
answers 200 with `private=false`, everything else answers 404, and every
pulls lookup answers 404. -/
def onlineAnalyzer : Analyzer :=
  ⟨true, "",
   fun repo => if repo = "pub/lic" then some (200, some false) else some (404, none),
   fun _ _ _ => some 404⟩

/-- A concrete analyzer configured to filter for the repository `o/r`. -/
def filteredAnalyzer : Analyzer :=
  { offlineAnalyzer with repository := "o/r" }

/-- Modelled from the spec: the candidate pattern of matching step 2 as
the claim words it — a segment is wildcarded if and only if it lies
within the trailing `i` segments and is entirely numeric. -/
def specCandidate (segments : List String) (i : Nat) : List String :=
  segments.enum.map (fun js =>
    if decide (segments.length ≤ js.1 + i) && pyIsDigit js.2 then "*" else js.2)

/-- Modelled from the spec: the matcher exactly as the claim describes it,
scanning `i` from `0` to the segment count and returning the first
catalog hit of the claim's candidate construction. -/
def claimedMatch (method path : String) : Option Grant :=
  (List.range (((pySplit '/' path).drop 1).length + 1)).findSome?
    (fun i => alookup specialCases (method, specCandidate ((pySplit '/' path).drop 1) i))

/-- Candidate construction of the amended claim: as `specCandidate`, plus
a segment starting with a brace is always wildcarded. -/
def specCandidateAmended (segments : List String) (i : Nat) : List String :=
  segments.enum.map (fun js =>
    if (decide (segments.length ≤ js.1 + i) && pyIsDigit js.2) || pyStartsWith js.2 "\x7b"
    then "*" else js.2)

/-- The matcher as the amended claim describes it. -/
def specMatchAmended (method path : String) : Option Grant :=
  (List.range (((pySplit '/' path).drop 1).length + 1)).findSome?
    (fun i => alookup specialCases (method, specCandidateAmended ((pySplit '/' path).drop 1) i))

/-- Number of occurrences of a key in a call log. -/
def countKey : List String → String → Nat
  | [], _ => 0
  | x :: xs, r => (if x = r then 1 else 0) + countKey xs r

/-- A run performing a sequence of visibility checks in order, threading
the caches and concatenating the outbound-call logs. -/
def runVisChecks (a : Analyzer) (c : Caches) : List String → Caches × List String
  | [] => (c, [])
  | repo :: rest =>
    let step := isPublicRepo a c repo
    let restRun := runVisChecks a step.2.1 rest
    (restRun.1, step.2.2 ++ restRun.2)

/-! ## Association-list and aggregation lemmas -/

theorem alookup_append {κ ν : Type} [DecidableEq κ] (l₁ l₂ : List (κ × ν)) (k : κ) :
    alookup (l₁ ++ l₂) k =
      match alookup l₁ k with
      | some v => some v
      | none => alookup l₂ k := by
  induction l₁ with
  | nil => simp [alookup]
  | cons e rest ih =>
    obtain ⟨k', v'⟩ := e
    by_cases h : k' = k <;> simp [alookup, h, ih]

theorem mem_of_alookup {κ ν : Type} [DecidableEq κ] {l : List (κ × ν)} {k : κ} {v : ν}
    (h : alookup l k = some v) : (k, v) ∈ l := by
  induction l with
  | nil => simp [alookup] at h
  | cons e rest ih =>
    obtain ⟨k', v'⟩ := e
    by_cases hk : k' = k
    · subst hk
      simp [alookup] at h
      subst h
      exact List.mem_cons_self _ _
    · simp [alookup, hk] at h
      exact List.mem_cons_of_mem _ (ih h)

theorem alookup_eq_none {κ ν : Type} [DecidableEq κ] {l : List (κ × ν)} {k : κ}
    (h : ∀ e ∈ l, e.1 ≠ k) : alookup l k = none := by
  induction l with
  | nil => rfl
  | cons e rest ih =>
    obtain ⟨k', v'⟩ := e
    have hk : k' ≠ k := h (k', v') (List.mem_cons_self _ _)
    simp only [alookup, if_neg hk]
    exact ih (fun e he => h e (List.mem_cons_of_mem _ he))

theorem alookup_updateAssoc (l : List Grant) (k v p : String) :
    alookup (updateAssoc l k v) p = if k = p then some v else alookup l p := by
  induction l with
  | nil => simp [updateAssoc, alookup]
  | cons e rest ih =>
    obtain ⟨k', v'⟩ := e
    by_cases hk : k' = k
    · subst hk
      by_cases hp : k' = p <;> simp [updateAssoc, alookup, hp]
    · by_cases hp : k' = p
      · subst hp
        have : ¬ k = k' := fun h => hk h.symm
        simp [updateAssoc, alookup, hk, this]
      · simp [updateAssoc, alookup, hk, hp, ih]

theorem countKey_append (l₁ l₂ : List String) (r : String) :
    countKey (l₁ ++ l₂) r = countKey l₁ r + countKey l₂ r := by
  induction l₁ with
  | nil => simp [countKey]
  | cons x xs ih => simp [countKey, ih, Nat.add_assoc]

theorem alookup_aggStep_ne (acc : List Grant) (q l p : String) (h : q ≠ p) :
    alookup (aggStep acc (q, l)) p = alookup acc p := by
  unfold aggStep
  by_cases hq : q = "unknown"
  · simp [hq]
  · rw [if_neg hq]
    split
    · rw [alookup_updateAssoc, if_neg h]
    · rfl

theorem aggStep_unknown (acc : List Grant) (l : String) :
    aggStep acc ("unknown", l) = acc := by
  unfold aggStep
  simp

theorem alookup_aggregate (gs : List Grant) : ∀ (acc : List Grant) (p : String),
    (∀ g ∈ gs, g.2 = "read" ∨ g.2 = "write") →
    alookup (aggregate acc gs) p =
      if p ≠ "unknown" ∧ (p, "write") ∈ gs then some "write"
      else if p ≠ "unknown" ∧ p ∈ gs.map Prod.fst ∧ alookup acc p = none then some "read"
      else alookup acc p := by
  induction gs with
  | nil =>
    intro acc p _
    simp [aggregate]
  | cons g rest ih =>
    intro acc p hwf
    obtain ⟨q, l⟩ := g
    rw [show aggregate acc ((q, l) :: rest) = aggregate (aggStep acc (q, l)) rest from rfl,
        ih _ p (fun g hg => hwf g (List.mem_cons_of_mem _ hg))]
    by_cases hpu : p = "unknown"
    · subst hpu
      have hstep : alookup (aggStep acc (q, l)) "unknown" = alookup acc "unknown" := by
        by_cases hq : q = "unknown"
        · subst hq; rw [aggStep_unknown]
        · exact alookup_aggStep_ne acc q l _ hq
      simp [hstep]
    · by_cases hpq : q = p
      · subst hpq
        have hqu : ¬ q = "unknown" := hpu
        rcases hwf (q, l) (List.mem_cons_self _ _) with hl | hl <;> simp only at hl <;> subst hl
        · cases hlk : alookup acc q with
          | none =>
            have hlk' : alookup (aggStep acc (q, "read")) q = some "read" := by
              unfold aggStep
              rw [if_neg hqu]
              simp only [hlk, Option.isNone_none, Bool.true_or, if_true]
              rw [alookup_updateAssoc]
              simp
            by_cases hw : (q, "write") ∈ rest
            · simp [hpu, hw, hlk']
            · simp [hpu, hw, hlk', hlk]
          | some v =>
            have hstep : aggStep acc (q, "read") = acc := by
              unfold aggStep
              rw [if_neg hqu]
              simp [hlk]
            rw [hstep]
            by_cases hw : (q, "write") ∈ rest
            · simp [hpu, hw, hlk]
            · simp [hpu, hw, hlk]
        · have hlk' : alookup (aggStep acc (q, "write")) q = some "write" := by
            unfold aggStep
            rw [if_neg hqu]
            simp only [Bool.or_true, decide_True, if_true]
            rw [alookup_updateAssoc]
            simp
          by_cases hw : (q, "write") ∈ rest
          · simp [hpu, hw, hlk']
          · simp [hpu, hw, hlk']
      · have hstep : alookup (aggStep acc (q, l)) p = alookup acc p :=
          alookup_aggStep_ne acc q l p hpq
        have hqp : ¬ p = q := fun h => hpq h.symm
        have hmemw : ((p, "write") ∈ (q, l) :: rest) ↔ (p, "write") ∈ rest := by
          simp [Prod.ext_iff, hqp]
        have hmemf : (p ∈ List.map Prod.fst ((q, l) :: rest)) ↔ p ∈ List.map Prod.fst rest := by
          simp [hqp]
        rw [hstep]
        simp only [List.map_cons] at hmemf ⊢
        simp only [hmemw, hmemf]

/-! ## Visibility-check lemmas -/

theorem pubVal_eq_true_iff (a : Analyzer) (repo : String) :
    pubVal a repo = true ↔ a.repoResp repo = some (200, some false) := by
  unfold pubVal
  cases h : a.repoResp repo with
  | none => simp
  | some sp =>
    obtain ⟨st, priv⟩ := sp
    by_cases hst : st = 200
    · subst hst
      cases priv with
      | none => simp
      | some b => cases b <;> simp
    · simp [hst, Prod.ext_iff]

theorem runVisChecks_cons (a : Analyzer) (c : Caches) (repo : String) (rest : List String) :
    runVisChecks a c (repo :: rest) =
      ((runVisChecks a (isPublicRepo a c repo).2.1 rest).1,
       (isPublicRepo a c repo).2.2 ++ (runVisChecks a (isPublicRepo a c repo).2.1 rest).2) := rfl

theorem runVisChecks_count (a : Analyzer) (repos : List String) :
    ∀ (c : Caches) (r : String),
      countKey (runVisChecks a c repos).2 r ≤ if (alookup c.repoCache r).isSome then 0 else 1 := by
  induction repos with
  | nil =>
    intro c r
    simp [runVisChecks, countKey]
  | cons repo rest ih =>
    intro c r
    rw [runVisChecks_cons]
    cases hcred : a.hasCred with
    | false =>
      have hpub : isPublicRepo a c repo = (false, c, []) := by
        unfold isPublicRepo
        rw [hcred]
        rfl
      rw [hpub]
      simpa [countKey] using ih c r
    | true =>
      cases hlk : alookup c.repoCache repo with
      | some b =>
        have hpub : isPublicRepo a c repo = (b, c, []) := by
          unfold isPublicRepo
          rw [hcred, hlk]
          rfl
        rw [hpub]
        simpa [countKey] using ih c r
      | none =>
        have hpub : isPublicRepo a c repo =
            (pubVal a repo,
             { c with repoCache := c.repoCache ++ [(repo, pubVal a repo)] },
             [repo]) := by
          unfold isPublicRepo
          rw [hcred, hlk]
          rfl
        rw [hpub]
        simp only [countKey_append]
        have hih := ih { c with repoCache := c.repoCache ++ [(repo, pubVal a repo)] } r
        by_cases hr : repo = r
        · subst hr
          have hlk2 : alookup (c.repoCache ++ [(repo, pubVal a repo)]) repo
              = some (pubVal a repo) := by
            rw [alookup_append, hlk]
            simp [alookup]
          rw [show Caches.repoCache { c with repoCache := c.repoCache ++ [(repo, pubVal a repo)] }
                = c.repoCache ++ [(repo, pubVal a repo)] from rfl, hlk2] at hih
          simp only [Option.isSome_some, if_true, Nat.le_zero] at hih
          simp [countKey, hih, hlk]
        · have hlk2 : alookup (c.repoCache ++ [(repo, pubVal a repo)]) r
              = alookup c.repoCache r := by
            rw [alookup_append]
            cases halt : alookup c.repoCache r with
            | some v => rfl
            | none => simp [alookup, hr]
          rw [show Caches.repoCache { c with repoCache := c.repoCache ++ [(repo, pubVal a repo)] }
                = c.repoCache ++ [(repo, pubVal a repo)] from rfl, hlk2] at hih
          simpa [countKey, hr] using hih

/-! ## Claim theorems -/

/-- C5: aggregation is order-independent and idempotent, and for each
permission the resulting level is "write" when some grant for it is a
write and "read" otherwise — a recorded write is never downgraded. -/
theorem c5_aggregation_lattice (g1 g2 : List Grant) (hperm : g1.Perm g2)
    (hwf : ∀ g ∈ g1, g.2 = "read" ∨ g.2 = "write") :
    (∀ p, alookup (aggregate [] g1) p = alookup (aggregate [] g2) p)
    ∧ (∀ p, alookup (aggregate (aggregate [] g1) g1) p = alookup (aggregate [] g1) p)
    ∧ (∀ p, p ≠ "unknown" →
        alookup (aggregate [] g1) p =
          if (p, "write") ∈ g1 then some "write"
          else if p ∈ g1.map Prod.fst then some "read" else none) := by
  have hwf2 : ∀ g ∈ g2, g.2 = "read" ∨ g.2 = "write" :=
    fun g hg => hwf g (hperm.mem_iff.mpr hg)
  refine ⟨?_, ?_, ?_⟩
  · intro p
    rw [alookup_aggregate g1 [] p hwf, alookup_aggregate g2 [] p hwf2]
    simp only [hperm.mem_iff, (hperm.map Prod.fst).mem_iff]
  · intro p
    rw [alookup_aggregate g1 (aggregate [] g1) p hwf, alookup_aggregate g1 [] p hwf]
    by_cases hpu : p = "unknown"
    · simp [hpu, alookup]
    · by_cases hw : (p, "write") ∈ g1
      · simp [hpu, hw]
      · by_cases hf : p ∈ g1.map Prod.fst
        · simp [hpu, hw, hf, alookup]
        · simp [hpu, hw, hf, alookup]
  · intro p hpu
    rw [alookup_aggregate g1 [] p hwf]
    by_cases hw : (p, "write") ∈ g1 <;> by_cases hf : p ∈ g1.map Prod.fst <;>
      simp [hpu, hw, hf, alookup]

/-- Witness for C5 at a concrete pair of grant lists. -/
theorem c5_aggregation_lattice_witness :
    alookup (aggregate [] [("contents", "write"), ("contents", "read")]) "contents"
      = alookup (aggregate [] [("contents", "read"), ("contents", "write")]) "contents"
    ∧ alookup (aggregate (aggregate [] [("contents", "write"), ("contents", "read")])
        [("contents", "write"), ("contents", "read")]) "contents"
      = alookup (aggregate [] [("contents", "write"), ("contents", "read")]) "contents"
    ∧ alookup (aggregate [] [("contents", "write"), ("contents", "read")]) "contents"
      = if ("contents", "write") ∈ [(("contents" : String), ("write" : String)), ("contents", "read")]
        then some "write"
        else if "contents" ∈ [(("contents" : String), ("write" : String)), ("contents", "read")].map Prod.fst
        then some "read" else none :=
  ⟨(c5_aggregation_lattice [("contents", "write"), ("contents", "read")]
      [("contents", "read"), ("contents", "write")] (by decide) (by decide)).1 "contents",
   (c5_aggregation_lattice [("contents", "write"), ("contents", "read")]
      [("contents", "read"), ("contents", "write")] (by decide) (by decide)).2.1 "contents",
   (c5_aggregation_lattice [("contents", "write"), ("contents", "read")]
      [("contents", "read"), ("contents", "write")] (by decide) (by decide)).2.2 "contents"
     (by decide)⟩

/-- C6: a record with `oidc` set contributes exactly the identity-token
grant `(id-token, write)`, whatever its method, path and query, touching
neither caches nor the network, and the resulting one-record manifest is
exactly `id-token: write`. -/
theorem c6_oidc_short_circuit :
    (∀ (a : Analyzer) (c : Caches) (m p q : Option String),
      classify a c ⟨m, p, q, true⟩ = ([("id-token", "write")], c, []))
    ∧ (∀ (a : Analyzer) (m p q : Option String),
      analyze a [⟨m, p, q, true⟩] = [("id-token", "write")]) := by
  constructor
  · intro a c m p q
    rfl
  · intro a m p q
    rfl

/-- C7: the visibility check answers true only on a 200 response with
`private=false` under a configured credential (any other status, a
transport failure, or a missing credential reads as private); the cache
stays faithful to the response function, and any sequence of checks makes
at most one outbound call per repository key — zero if the key is already
cached. -/
theorem c7_visibility_fail_closed_cached (a : Analyzer) (c : Caches)
    (hinv : ∀ e ∈ c.repoCache, e.2 = pubVal a e.1) :
    (∀ repo, (isPublicRepo a c repo).1 = true ↔
        a.hasCred = true ∧ a.repoResp repo = some (200, some false))
    ∧ (∀ repo, ∀ e ∈ ((isPublicRepo a c repo).2.1).repoCache, e.2 = pubVal a e.1)
    ∧ (∀ (repos : List String) (r : String),
        countKey (runVisChecks a c repos).2 r
          ≤ if (alookup c.repoCache r).isSome then 0 else 1) := by
  refine ⟨?_, ?_, fun repos r => runVisChecks_count a repos c r⟩
  · intro repo
    cases hcred : a.hasCred with
    | false =>
      have hst : isPublicRepo a c repo = (false, c, []) := by
        unfold isPublicRepo
        rw [hcred]
        rfl
      rw [hst]
      simp [hcred]
    | true =>
      cases hlk : alookup c.repoCache repo with
      | some b =>
        have hst : isPublicRepo a c repo = (b, c, []) := by
          unfold isPublicRepo
          rw [hcred, hlk]
          rfl
        have hb : b = pubVal a repo := hinv (repo, b) (mem_of_alookup hlk)
        rw [hst]
        simp only [hb]
        rw [pubVal_eq_true_iff]
        simp [hcred]
      | none =>
        have hst : isPublicRepo a c repo =
            (pubVal a repo,
             { c with repoCache := c.repoCache ++ [(repo, pubVal a repo)] },
             [repo]) := by
          unfold isPublicRepo
          rw [hcred, hlk]
          rfl
        rw [hst]
        simp only []
        rw [pubVal_eq_true_iff]
        simp [hcred]
  · intro repo e he
    cases hcred : a.hasCred with
    | false =>
      have hst : isPublicRepo a c repo = (false, c, []) := by
        unfold isPublicRepo
        rw [hcred]
        rfl
      rw [hst] at he
      exact hinv e he
    | true =>
      cases hlk : alookup c.repoCache repo with
      | some b =>
        have hst : isPublicRepo a c repo = (b, c, []) := by
          unfold isPublicRepo
          rw [hcred, hlk]
          rfl
        rw [hst] at he
        exact hinv e he
      | none =>
        have hst : isPublicRepo a c repo =
            (pubVal a repo,
             { c with repoCache := c.repoCache ++ [(repo, pubVal a repo)] },
             [repo]) := by
          unfold isPublicRepo
          rw [hcred, hlk]
          rfl
        rw [hst] at he
        rcases List.mem_append.mp he with hin | hin
        · exact hinv e hin
        · rw [List.mem_singleton] at hin
          subst hin
          rfl

/-- Witness for C7: a credentialed analyzer, a fresh cache, a public
repository, and a run checking the same repository three times. -/
theorem c7_visibility_fail_closed_cached_witness :
    ((isPublicRepo onlineAnalyzer emptyCaches "pub/lic").1 = true ↔
      onlineAnalyzer.hasCred = true
        ∧ onlineAnalyzer.repoResp "pub/lic" = some (200, some false))
    ∧ countKey (runVisChecks onlineAnalyzer emptyCaches ["pub/lic", "pub/lic", "pub/lic"]).2 "pub/lic"
        ≤ if (alookup emptyCaches.repoCache "pub/lic").isSome then 0 else 1 :=
  ⟨(c7_visibility_fail_closed_cached onlineAnalyzer emptyCaches
      (fun _ he => nomatch he)).1 "pub/lic",
   (c7_visibility_fail_closed_cached onlineAnalyzer emptyCaches
      (fun _ he => nomatch he)).2.2 ["pub/lic", "pub/lic", "pub/lic"] "pub/lic"⟩

/-- C1 (counterexample): the record of the claim — `GET` on
`/repos/o/r/releases/download/v1/asset.zip` with no credential — yields
the manifest `contents: read`, not the empty manifest the claim states:
in that path the fourth segment is `r`, so the no-permission release
rule (which keys on segment 3 being `releases`) does not fire, and the
`releases` resource rule answers instead. -/
theorem c1_counterexample :
    analyze offlineAnalyzer
        [⟨some "GET", some "/repos/o/r/releases/download/v1/asset.zip", none, false⟩]
      = [("contents", "read")]
    ∧ analyze offlineAnalyzer
        [⟨some "GET", some "/repos/o/r/releases/download/v1/asset.zip", none, false⟩]
      ≠ [] := by
  decide

/-- C1 (amended): the release-download no-permission rule applies to
paths of the shape `/{owner}/{repo}/releases/download/...` (no `/repos`
prefix): such a request passes every filter and yields no grant, for any
analyzer; the `/repos/...`-prefixed form of the claim instead hits the
`releases` resource rule and, with no credential, yields
`contents: read`. -/
theorem c1_release_download (a : Analyzer) (hcred : a.hasCred = false)
    (hrep : a.repository = "") :
    (∀ (a2 : Analyzer) (c : Caches) (q : String),
        getPermission a2 c "GET" "/o/r/releases/download/v1/asset.zip" q = ([], c, []))
    ∧ (∀ (a2 : Analyzer) (q : Option String),
        analyze a2 [⟨some "GET", some "/o/r/releases/download/v1/asset.zip", q, false⟩] = [])
    ∧ (∀ (c : Caches) (q : String),
        getPermission a c "GET" "/repos/o/r/releases/download/v1/asset.zip" q
          = ([("contents", "read")], c, [])) := by
  have h1 : ∀ (a2 : Analyzer) (c : Caches) (q : String),
      getPermission a2 c "GET" "/o/r/releases/download/v1/asset.zip" q = ([], c, []) := by
    intro a2 c q
    have hsame : isSameRepo a2.repository (pySplit '/' "/o/r/releases/download/v1/asset.zip")
        = true := by
      unfold isSameRepo
      by_cases hr : a2.repository = ""
      · rw [if_pos hr]
      · rw [if_neg hr]
        rfl
    unfold getPermission
    rw [hsame]
    rfl
  refine ⟨h1, ?_, ?_⟩
  · intro a2 q
    have hcl : classify a2 emptyCaches
        ⟨some "GET", some "/o/r/releases/download/v1/asset.zip", q, false⟩
        = ([], emptyCaches, []) :=
      h1 a2 emptyCaches (q.getD "")
    unfold analyze
    rw [List.foldl_cons, List.foldl_nil, hcl]
    rfl
  · intro c q
    obtain ⟨cr, rep, rr, pr⟩ := a
    dsimp only at hcred hrep
    subst hcred
    subst hrep
    rfl

/-- Witness for C1 at the offline analyzer. -/
theorem c1_release_download_witness :
    (∀ (a2 : Analyzer) (c : Caches) (q : String),
        getPermission a2 c "GET" "/o/r/releases/download/v1/asset.zip" q = ([], c, []))
    ∧ (∀ (a2 : Analyzer) (q : Option String),
        analyze a2 [⟨some "GET", some "/o/r/releases/download/v1/asset.zip", q, false⟩] = [])
    ∧ (∀ (c : Caches) (q : String),
        getPermission offlineAnalyzer c "GET" "/repos/o/r/releases/download/v1/asset.zip" q
          = ([("contents", "read")], c, [])) :=
  c1_release_download offlineAnalyzer rfl rfl

/-- C2 (counterexample): `POST /repos/o/r/pulls/5/merge` resolves to
`pull-requests: write`, not `contents: write`: the catalog's merge entry
is keyed to `PUT`, and its owner/repo wildcards are only matched for
entirely numeric observed segments, so the matcher misses and the
generic `pulls` resource rule answers. -/
theorem c2_counterexample :
    analyze offlineAnalyzer [⟨some "POST", some "/repos/o/r/pulls/5/merge", none, false⟩]
      = [("pull-requests", "write")]
    ∧ analyze offlineAnalyzer [⟨some "POST", some "/repos/o/r/pulls/5/merge", none, false⟩]
      ≠ [("contents", "write")] := by
  decide

/-- C2 (amended): with no repository filter configured,
`POST /repos/o/r/pulls/5/merge` produces the manifest
`pull-requests: write` through the generic resolver; the catalog's merge
special case does not fire for it (it is keyed to `PUT` and its
owner/repo wildcards only match numeric segments), though it does fire
for `PUT` with numeric owner and repo, yielding `contents: write`. -/
theorem c2_merge_endpoint (a : Analyzer) (hrep : a.repository = "") :
    analyze a [⟨some "POST", some "/repos/o/r/pulls/5/merge", none, false⟩]
      = [("pull-requests", "write")]
    ∧ matchSpecialCase "POST" "/repos/o/r/pulls/5/merge" = none
    ∧ matchSpecialCase "PUT" "/repos/123/456/pulls/5/merge" = some ("contents", "write") := by
  obtain ⟨cr, rep, rr, pr⟩ := a
  dsimp only at hrep
  subst hrep
  exact ⟨rfl, by decide, by decide⟩

/-- Witness for C2 at the offline analyzer. -/
theorem c2_merge_endpoint_witness :
    analyze offlineAnalyzer [⟨some "POST", some "/repos/o/r/pulls/5/merge", none, false⟩]
      = [("pull-requests", "write")]
    ∧ matchSpecialCase "POST" "/repos/o/r/pulls/5/merge" = none
    ∧ matchSpecialCase "PUT" "/repos/123/456/pulls/5/merge" = some ("contents", "write") :=
  c2_merge_endpoint offlineAnalyzer rfl

/-- C8 (counterexample): an input containing a record with no `method`
and no `path` is not fatal: the run continues past it and still
classifies the following record into a manifest, where the claim says
the whole input must abort before any classification. -/
theorem c8_counterexample :
    analyze offlineAnalyzer
        [⟨none, none, none, false⟩, ⟨some "GET", some "/repos/o/r/pulls/5", none, false⟩]
      = [("pull-requests", "read")] := by
  decide

/-- C8 (amended): only input that fails JSON parsing aborts the program
(in `main`, before `analyze` runs); a record missing `method` or `path`
is not fatal: each missing field is read as the empty string, so the
record is classified exactly as if those fields were present and empty.
A record missing both fields classifies to the dropped `unknown`
sentinel and leaves the analysis of the remaining records — caches and
manifest alike — as if it were absent, while a record missing only one
field can still contribute a real grant (missing method with path
`/repos/o/r/pulls/5` yields `pull-requests: write`, the non-`GET`
default level). -/
theorem c8_missing_fields_not_fatal :
    (∀ (a : Analyzer) (c : Caches) (m p q : Option String) (o : Bool),
        classify a c ⟨m, p, q, o⟩
          = classify a c ⟨some (m.getD ""), some (p.getD ""), some (q.getD ""), o⟩)
    ∧ (∀ (a : Analyzer) (c : Caches) (q : Option String),
        classify a c ⟨none, none, q, false⟩ = ([("unknown", "unknown")], c, []))
    ∧ (∀ (a : Analyzer) (recs : List RequestRecord) (q : Option String),
        analyze a (⟨none, none, q, false⟩ :: recs) = analyze a recs)
    ∧ analyze offlineAnalyzer [⟨none, some "/repos/o/r/pulls/5", none, false⟩]
        = [("pull-requests", "write")] := by
  have h1 : ∀ (a : Analyzer) (c : Caches) (q : Option String),
      classify a c ⟨none, none, q, false⟩ = ([("unknown", "unknown")], c, []) := by
    intro a c q
    have hsame : isSameRepo a.repository (pySplit '/' "") = true := by
      unfold isSameRepo
      by_cases hr : a.repository = ""
      · rw [if_pos hr]
      · rw [if_neg hr]
        rfl
    show getPermission a c "" "" (q.getD "") = ([("unknown", "unknown")], c, [])
    unfold getPermission
    rw [hsame]
    rfl
  refine ⟨fun a c m p q o => rfl, h1, ?_, by decide⟩
  intro a recs q
  unfold analyze
  rw [List.foldl_cons, h1 a emptyCaches q]
  rfl

/-- C9: with no configured repository every request passes the filter;
requests whose path is not of the `/repos/{owner}/{repo}/...` shape —
including numeric-id `/repositories/{id}/...` paths — always pass; and
under a configured target, a `/repos/...` path whose owner/repo differs
case-insensitively is rejected and contributes no grant at all. -/
theorem c9_repository_filter :
    (∀ segs : List String, isSameRepo "" segs = true)
    ∧ (∀ (rep : String) (segs : List String),
        ¬(4 ≤ segs.length ∧ segs.getD 1 "" = "repos") → isSameRepo rep segs = true)
    ∧ (∀ (a : Analyzer) (c : Caches) (m path q : String),
        4 ≤ (pySplit '/' path).length →
        (pySplit '/' path).getD 1 "" = "repos" →
        pyLower ((pySplit '/' path).getD 2 "" ++ "/" ++ (pySplit '/' path).getD 3 "")
          ≠ pyLower a.repository →
        a.repository ≠ "" →
        isSameRepo a.repository (pySplit '/' path) = false
        ∧ getPermission a c m path q = ([], c, [])) := by
  refine ⟨?_, ?_, ?_⟩
  · intro segs
    unfold isSameRepo
    rw [if_pos rfl]
  · intro rep segs h
    unfold isSameRepo
    by_cases hr : rep = ""
    · rw [if_pos hr]
    · rw [if_neg hr, if_neg h, ite_self]
  · intro a c m path q h4 h1 hne hrep
    have hfalse : isSameRepo a.repository (pySplit '/' path) = false := by
      unfold isSameRepo
      rw [if_neg hrep, if_pos ⟨h4, h1⟩]
      exact decide_eq_false hne
    refine ⟨hfalse, ?_⟩
    unfold getPermission
    rw [hfalse]
    rfl

/-- Witness for C9: target `o/r` configured, request for `/repos/x/y/issues`. -/
theorem c9_repository_filter_witness :
    isSameRepo filteredAnalyzer.repository (pySplit '/' "/repos/x/y/issues") = false
    ∧ getPermission filteredAnalyzer emptyCaches "GET" "/repos/x/y/issues" ""
        = ([], emptyCaches, []) :=
  c9_repository_filter.2.2 filteredAnalyzer emptyCaches "GET" "/repos/x/y/issues" ""
    (by decide) (by decide) (by decide) (by decide)

/-- C4: for `GET /repos/{owner}/{repo}/issues/{number}` with numeric
number, the resolver consults the identity check: a pull-request answer
yields only a pull-requests grant, an issue answer only an issues grant,
and an unknown answer (in particular with no credential) both grants at
the same level — concretely, `GET /repos/o/r/issues/42` with no
credential yields both `issues: read` and `pull-requests: read`. -/
theorem c4_issue_disambiguation :
    (∀ (a : Analyzer) (c : Caches) (owner repo num q : String),
      pyIsDigit num = true →
      resolveGeneric a c "GET" ["", "repos", owner, repo, "issues", num] q =
        match isPullRequest a c owner repo num with
        | (some true, c2) => ([("pull-requests", "read")], c2, [])
        | (some false, c2) => ([("issues", "read")], c2, [])
        | (none, c2) => ([("issues", "read"), ("pull-requests", "read")], c2, []))
    ∧ (∀ (a : Analyzer), a.hasCred = false → a.repository = "" →
      analyze a [⟨some "GET", some "/repos/o/r/issues/42", none, false⟩]
        = [("issues", "read"), ("pull-requests", "read")]) := by
  constructor
  · intro a c owner repo num q hd
    have hblock : repoResourceBlock a c "GET" ["", "repos", owner, repo, "issues", num] =
        (if pyIsDigit num then
          match isPullRequest a c owner repo num with
          | (some true, c2) => some (([("pull-requests", "read")] : List Grant), c2, ([] : List String))
          | (some false, c2) => some ([("issues", "read")], c2, [])
          | (none, c2) => some ([("issues", "read"), ("pull-requests", "read")], c2, [])
        else none) := rfl
    unfold resolveGeneric
    rw [hblock, hd]
    simp only [if_true]
    rcases hpr : isPullRequest a c owner repo num with ⟨pr, c2⟩
    rcases pr with _ | b
    · simp
    · rcases b with _ | _ <;> simp
  · intro a h1 h2
    obtain ⟨cr, rep, rr, pr⟩ := a
    dsimp only at h1 h2
    subst h1
    subst h2
    rfl

/-- Witness for C4 at the offline analyzer and issue 42. -/
theorem c4_issue_disambiguation_witness :
    pyIsDigit "42" = true
    ∧ resolveGeneric offlineAnalyzer emptyCaches "GET" ["", "repos", "o", "r", "issues", "42"] ""
        = ([("issues", "read"), ("pull-requests", "read")], emptyCaches, [])
    ∧ analyze offlineAnalyzer [⟨some "GET", some "/repos/o/r/issues/42", none, false⟩]
        = [("issues", "read"), ("pull-requests", "read")] :=
  ⟨by decide,
   c4_issue_disambiguation.1 offlineAnalyzer emptyCaches "o" "r" "42" "" (by decide),
   c4_issue_disambiguation.2 offlineAnalyzer rfl rfl⟩

/-! ## Catalog and matcher lemmas -/

theorem specialCases_star :
    ∀ e ∈ specialCases, e.1.2[1]? = some "*" ∧ e.1.2[2]? = some "*" := by
  decide

theorem specialCases_no_brace :
    ∀ e ∈ specialCases, ∀ s ∈ e.1.2, pyStartsWith s "\x7b" = false := by
  decide

theorem candidate_eq_amended (segments : List String) (i : Nat) :
    candidate segments i = specCandidateAmended segments i := by
  unfold candidate specCandidateAmended
  apply List.map_congr_left
  intro js _
  rw [show decide (segments.length - i ≤ js.1) = decide (segments.length ≤ js.1 + i) from
       decide_eq_decide.mpr Nat.sub_le_iff_le_add]

theorem candidate_getElem_one (segs : List String) (i : Nat) (owner : String)
    (ho : segs[1]? = some owner) (hd : pyIsDigit owner = false)
    (hb : pyStartsWith owner "\x7b" = false) :
    (candidate segs i)[1]? = some owner := by
  unfold candidate
  rw [List.getElem?_map, List.getElem?_enum, ho]
  simp [hd, hb]

theorem matchSpecialCase_eq_none (m path owner : String)
    (ho : ((pySplit '/' path).drop 1)[1]? = some owner)
    (hd : pyIsDigit owner = false) (hb : pyStartsWith owner "\x7b" = false)
    (hs : owner ≠ "*") :
    matchSpecialCase m path = none := by
  unfold matchSpecialCase
  refine List.findSome?_eq_none_iff.mpr ?_
  intro i _
  apply alookup_eq_none
  intro e he hkey
  have hstar : e.1.2[1]? = some "*" := (specialCases_star e he).1
  have hcand : (candidate ((pySplit '/' path).drop 1) i)[1]? = some owner :=
    candidate_getElem_one _ i owner ho hd hb
  rw [hkey] at hstar
  simp only [] at hstar
  rw [hcand] at hstar
  exact hs (Option.some.inj hstar)

theorem candidate_zero_of_no_brace (segs : List String)
    (hnb : ∀ s ∈ segs, pyStartsWith s "\x7b" = false) :
    candidate segs 0 = segs := by
  unfold candidate
  have hcongr : ∀ js ∈ segs.enum,
      (if (decide (segs.length - 0 ≤ js.1) && pyIsDigit js.2) || pyStartsWith js.2 "\x7b"
       then "*" else js.2) = js.2 := by
    intro js hjs
    have h1 : segs[js.1]? = some js.2 := by
      rcases js with ⟨j, s⟩
      exact (List.mk_mem_enum_iff_getElem?.mp hjs)
    have hlt : js.1 < segs.length := by
      by_contra hge
      rw [List.getElem?_eq_none (Nat.le_of_not_lt hge)] at h1
      exact Option.noConfusion h1
    have hmemS : js.2 ∈ segs := by
      have := List.getElem?_eq_some.mp h1
      rcases this with ⟨hj, hget⟩
      rw [← hget]
      exact List.getElem_mem hj
    have hcond : decide (segs.length - 0 ≤ js.1) = false := by
      rw [decide_eq_false_iff_not]
      omega
    rw [hcond, hnb js.2 hmemS]
    simp
  rw [List.map_congr_left hcongr]
  exact List.enumFrom_map_snd 0 segs

theorem matchSpecialCase_literal_hit (m path : String) (v : Grant)
    (h : alookup specialCases (m, (pySplit '/' path).drop 1) = some v) :
    matchSpecialCase m path = some v := by
  have hmem := mem_of_alookup h
  have hnb : ∀ s ∈ (pySplit '/' path).drop 1, pyStartsWith s "\x7b" = false :=
    fun s hsIn => specialCases_no_brace _ hmem s hsIn
  have hc0 : candidate ((pySplit '/' path).drop 1) 0 = (pySplit '/' path).drop 1 :=
    candidate_zero_of_no_brace _ hnb
  unfold matchSpecialCase
  rw [List.range_succ_eq_map]
  simp only [List.findSome?_cons]
  rw [hc0, h]

/-- C3 (counterexample): the claim's candidate construction — wildcard if
and only if trailing-window and entirely numeric — does not describe the
matcher: on `GET /repos/{owner}/{repo}/labels` the matcher also
wildcards the brace-led segments and returns a hit, while the claimed
construction leaves them literal and finds none. -/
theorem c3_counterexample :
    matchSpecialCase "GET" "/repos/{owner}/{repo}/labels" = some ("issues", "read")
    ∧ claimedMatch "GET" "/repos/{owner}/{repo}/labels" = none := by
  decide

/-- C3 (amended): the matcher scans `i` from 0 to the segment count and
returns the first hit of the candidate in which a segment is wildcarded
exactly when it lies in the trailing `i` segments and is entirely
numeric, **or** when it starts with a brace; in particular a fully
literal catalog hit is returned (at `i = 0`), so a literal match beats
any wildcarded one. -/
theorem c3_matcher_construction :
    (∀ (m p : String), matchSpecialCase m p = specMatchAmended m p)
    ∧ (∀ (m p : String) (v : Grant),
        alookup specialCases (m, (pySplit '/' p).drop 1) = some v →
        matchSpecialCase m p = some v) := by
  constructor
  · intro m p
    unfold matchSpecialCase specMatchAmended
    congr 1
    funext i
    rw [candidate_eq_amended]
  · intro m p v h
    exact matchSpecialCase_literal_hit m p v h

/-- Witness for C3: the fully literal catalog key `/repos/*/*/branches`
is hit as-is, and the amended description agrees with the matcher there. -/
theorem c3_matcher_construction_witness :
    matchSpecialCase "GET" "/repos/*/*/branches" = specMatchAmended "GET" "/repos/*/*/branches"
    ∧ matchSpecialCase "GET" "/repos/*/*/branches" = some ("contents", "read") :=
  ⟨c3_matcher_construction.1 "GET" "/repos/*/*/branches",
   c3_matcher_construction.2 "GET" "/repos/*/*/branches" ("contents", "read") (by decide)⟩

/-- C10 (counterexample): a path whose owner and repo segments are the
literal `*` — not entirely numeric — still hits the catalog, because the
candidate happens to coincide with the stored wildcard pattern. -/
theorem c10_counterexample :
    pyIsDigit "*" = false
    ∧ matchSpecialCase "GET" "/repos/*/*/labels" = some ("issues", "read") := by
  decide

/-- C10 (amended): every catalog entry wildcards the owner and repo
positions, and for any method and path whose owner and repo segments are
not entirely numeric, do not start with a brace, and are not the literal
`*`, the catalog matcher returns no hit and classification falls
through to the repository filter and generic resolver alone. -/
theorem c10_catalog_unreachable :
    (∀ e ∈ specialCases, e.1.2[1]? = some "*" ∧ e.1.2[2]? = some "*")
    ∧ (∀ (m path owner repo : String) (a : Analyzer) (c : Caches) (q : String),
        ((pySplit '/' path).drop 1)[1]? = some owner →
        ((pySplit '/' path).drop 1)[2]? = some repo →
        pyIsDigit owner = false → pyStartsWith owner "\x7b" = false → owner ≠ "*" →
        pyIsDigit repo = false → pyStartsWith repo "\x7b" = false → repo ≠ "*" →
        matchSpecialCase m path = none
        ∧ getPermission a c m path q =
            (if isSameRepo a.repository (pySplit '/' path) = true
             then resolveGeneric a c m (pySplit '/' path) q
             else ([], c, []))) := by
  refine ⟨specialCases_star, ?_⟩
  intro m path owner repo a c q ho _ hd hb hs _ _ _
  have hnone : matchSpecialCase m path = none :=
    matchSpecialCase_eq_none m path owner ho hd hb hs
  refine ⟨hnone, ?_⟩
  unfold getPermission
  rw [hnone]
  cases hsr : isSameRepo a.repository (pySplit '/' path) <;> simp [hsr]

/-- Witness for C10 at `GET /repos/xx/yy/labels`. -/
theorem c10_catalog_unreachable_witness :
    matchSpecialCase "GET" "/repos/xx/yy/labels" = none
    ∧ getPermission offlineAnalyzer emptyCaches "GET" "/repos/xx/yy/labels" "" =
        (if isSameRepo offlineAnalyzer.repository (pySplit '/' "/repos/xx/yy/labels") = true
         then resolveGeneric offlineAnalyzer emptyCaches "GET" (pySplit '/' "/repos/xx/yy/labels") ""
         else ([], emptyCaches, [])) :=
  c10_catalog_unreachable.2 "GET" "/repos/xx/yy/labels" "xx" "yy"
    offlineAnalyzer emptyCaches ""
    (by decide) (by decide) (by decide) (by decide) (by decide)
    (by decide) (by decide) (by decide)
